import Mathlib

/-! Shallow embedding of the renderer audio state management of Hexendrum
(src/renderer/contexts/AudioContext.js): the reducer over the audio state,
the transport and queue operations exposed by the provider, and the
websocket event handlers. Pure state transforms model the success path of
each operation (the dispatch sequence it performs); the shuffle branch of
nextTrack is parametrised by the sequence of random draws. -/

namespace Hexendrum

/-- A track reference as held in the renderer state: identity, file path and
an optional duration (the duration field of a track object may be absent). -/
structure Track where
  id : String
  path : String
  duration : Option Rat
deriving DecidableEq, Repr

/-- The repeat mode strings 'none' | 'one' | 'all'. -/
inductive RepeatMode where
  | none
  | one
  | all
deriving DecidableEq, Repr

/-- A playlist as normalised by loadPlaylists (only identity, name and the
track identities matter here). -/
structure Playlist where
  id : String
  name : String
  tracks : List String
deriving DecidableEq, Repr

/-- The renderer audio state: the fields of initialState in AudioContext.js. -/
structure AudioState where
  currentTrack : Option Track
  isPlaying : Bool
  volume : Rat
  progress : Rat
  duration : Rat
  queue : List Track
  currentQueueIndex : Int
  repeatMode : RepeatMode
  shuffle : Bool
  library : List Track
  playlists : List Playlist
  loading : Bool
  error : Option String
deriving DecidableEq, Repr

/-- The initialState object of AudioContext.js. -/
def initialState : AudioState where
  currentTrack := none
  isPlaying := false
  volume := 7/10
  progress := 0
  duration := 0
  queue := []
  currentQueueIndex := -1
  repeatMode := RepeatMode.none
  shuffle := false
  library := []
  playlists := []
  loading := false
  error := none

/-- The reducer actions (the ACTIONS table), each with its payload. SET_QUEUE
carries the optional startIndex the JS action may attach (absent when the
dispatched action has no numeric startIndex field). -/
inductive Action where
  | setCurrentTrack (payload : Option Track)
  | setPlaybackState (payload : Bool)
  | setVolume (payload : Rat)
  | setProgress (payload : Rat)
  | setDuration (payload : Rat)
  | setQueue (payload : List Track) (startIndex : Option Int)
  | addToQueue (payload : Track)
  | removeFromQueue (payload : Int)
  | clearQueue
  | setRepeatMode (payload : RepeatMode)
  | setShuffle (payload : Bool)
  | setLibrary (payload : List Track)
  | setPlaylists (payload : List Playlist)
  | setQueueIndex (payload : Int)
  | setLoading (payload : Bool)
  | setError (payload : Option String)
deriving DecidableEq, Repr

/-- JS Array.prototype.filter over (element, index) keeping the entries whose
index differs from i, as used by the REMOVE_FROM_QUEUE branch and by
removeFromQueue; k is the array index of the head of the remaining list. -/
def filterOutIndex (i : Int) (k : Nat) : List Track → List Track
  | [] => []
  | x :: xs =>
    if (k : Int) = i then filterOutIndex i (k + 1) xs
    else x :: filterOutIndex i (k + 1) xs

/-- The audioReducer switch of AudioContext.js. -/
def audioReducer (state : AudioState) (action : Action) : AudioState :=
  match action with
  | .setCurrentTrack payload => { state with currentTrack := payload }
  | .setPlaybackState payload => { state with isPlaying := payload }
  | .setVolume payload => { state with volume := payload }
  | .setProgress payload => { state with progress := payload }
  | .setDuration payload => { state with duration := payload }
  | .setQueue payload startIndex =>
    let s : Int :=
      match startIndex with
      | some i => i
      | none => if 0 < payload.length then 0 else -1
    { state with queue := payload, currentQueueIndex := s }
  | .addToQueue payload =>
    if state.queue.any (fun queueTrack => queueTrack.id == payload.id) then
      state
    else
      let queueWasEmpty := state.queue.length == 0
      let newQueue := state.queue ++ [payload]
      { state with
          queue := newQueue,
          currentQueueIndex := if queueWasEmpty then 0 else state.currentQueueIndex,
          currentTrack := if queueWasEmpty then some payload else state.currentTrack }
  | .removeFromQueue payload =>
    let newQueue := filterOutIndex payload 0 state.queue
    { state with
        queue := newQueue,
        currentQueueIndex :=
          if newQueue.length = 0 then -1
          else if (newQueue.length : Int) ≤ state.currentQueueIndex then
            (newQueue.length : Int) - 1
          else state.currentQueueIndex }
  | .clearQueue =>
    { state with queue := [], currentQueueIndex := -1, currentTrack := none }
  | .setRepeatMode payload => { state with repeatMode := payload }
  | .setShuffle payload => { state with shuffle := payload }
  | .setLibrary payload => { state with library := payload }
  | .setPlaylists payload => { state with playlists := payload }
  | .setQueueIndex payload => { state with currentQueueIndex := payload }
  | .setLoading payload => { state with loading := payload }
  | .setError payload => { state with error := payload }

/-- JS array indexing queue[i]: undefined (none) when negative or past the end. -/
def jsIndex (l : List Track) (i : Int) : Option Track :=
  if i < 0 then none else l.get? i.toNat

/-- Success path of pausePlayback: dispatches SET_PLAYBACK_STATE false. -/
def pausePlayback (s : AudioState) : AudioState :=
  audioReducer s (.setPlaybackState false)

/-- Success path of resumePlayback: dispatches SET_PLAYBACK_STATE true. -/
def resumePlayback (s : AudioState) : AudioState :=
  audioReducer s (.setPlaybackState true)

/-- togglePlayPause: pause when playing, resume when a current track is bound,
otherwise do nothing. -/
def togglePlayPause (s : AudioState) : AudioState :=
  if s.isPlaying then pausePlayback s
  else
    match s.currentTrack with
    | some _ => resumePlayback s
    | none => s

/-- The dispatch sequence shared by the success paths of nextTrack and
previousTrack: SET_QUEUE_INDEX, SET_CURRENT_TRACK, SET_PROGRESS 0,
SET_DURATION (track.duration or 0), SET_PLAYBACK_STATE true. -/
def applyPlayDispatches (s : AudioState) (idx : Int) (t : Track) : AudioState :=
  let s1 := audioReducer s (.setQueueIndex idx)
  let s2 := audioReducer s1 (.setCurrentTrack (some t))
  let s3 := audioReducer s2 (.setProgress 0)
  let s4 := audioReducer s3 (.setDuration (t.duration.getD 0))
  audioReducer s4 (.setPlaybackState true)

/-- The do-while loop of the shuffle branch of nextTrack: consume random
draws until one differs from the cursor; none when the modelled draw
sequence is exhausted before the loop exits. -/
def pickShuffleIndex (cursor : Int) : List Nat → Option Nat
  | [] => none
  | r :: rs => if (r : Int) = cursor then pickShuffleIndex cursor rs else some r

/-- nextTrack of AudioContext.js, parametrised by the sequence of random
draws (each draw models one Math.floor(Math.random() * queue.length)).
Returns the played track and the updated state, or none when the function
returns without dispatching. -/
def nextTrack (s : AudioState) (draws : List Nat) : Option (Track × AudioState) :=
  if s.queue.length = 0 then none
  else
    let nextIndexOpt : Option Int :=
      if s.repeatMode = RepeatMode.one then some s.currentQueueIndex
      else if s.shuffle then
        if 1 < s.queue.length then
          match pickShuffleIndex s.currentQueueIndex draws with
          | some r => some ((r : Nat) : Int)
          | none => none
        else some s.currentQueueIndex
      else
        let n := s.currentQueueIndex + 1
        if (s.queue.length : Int) ≤ n then
          if s.repeatMode = RepeatMode.all then some 0 else none
        else some n
    match nextIndexOpt with
    | none => none
    | some nextIndex =>
      match jsIndex s.queue nextIndex with
      | none => none
      | some next => some (next, applyPlayDispatches s nextIndex next)

/-- previousTrack of AudioContext.js: decrement the cursor; below 0, wrap to
the last index when repeat is all, otherwise fall back to the current cursor. -/
def previousTrack (s : AudioState) : Option (Track × AudioState) :=
  if s.queue.length = 0 then none
  else
    let decremented := s.currentQueueIndex - 1
    let prevIndex :=
      if decremented < 0 then
        if s.repeatMode = RepeatMode.all then (s.queue.length : Int) - 1
        else s.currentQueueIndex
      else decremented
    match jsIndex s.queue prevIndex with
    | none => none
    | some previous => some (previous, applyPlayDispatches s prevIndex previous)

/-- The state transform of one nextTrack call: the updated state on success,
the unchanged state when nextTrack returns without dispatching. -/
def advanceState (s : AudioState) (draws : List Nat) : AudioState :=
  match nextTrack s draws with
  | some (_, s2) => s2
  | none => s

/-- One sequential (shuffle-irrelevant) nextTrack step. -/
def seqAdvance (s : AudioState) : AudioState :=
  advanceState s []

/-- The exposed addToQueue operation: dispatch ADD_TO_QUEUE. -/
def addToQueue (s : AudioState) (track : Track) : AudioState :=
  audioReducer s (.addToQueue track)

/-- The exposed removeFromQueue operation: recompute the queue, clamp the
index, dispatch SET_QUEUE with that startIndex and rebind the current track. -/
def removeFromQueue (s : AudioState) (index : Int) : AudioState :=
  let newQueue := filterOutIndex index 0 s.queue
  let nextIndex : Int :=
    if newQueue.length = 0 then -1
    else min s.currentQueueIndex ((newQueue.length : Int) - 1)
  let s1 := audioReducer s (.setQueue newQueue (some nextIndex))
  audioReducer s1
    (.setCurrentTrack (if 0 ≤ nextIndex then jsIndex newQueue nextIndex else none))

/-- The exposed clearQueue operation. -/
def clearQueue (s : AudioState) : AudioState :=
  audioReducer s .clearQueue

/-- JS String.prototype.toLowerCase modelled per character. -/
def jsToLower (s : String) : String :=
  String.mk (s.data.map Char.toLower)

/-- The payload fields the event handlers read; absent or falsy fields are
none (payload.track_id and the like are normalised with a truthiness check). -/
structure EventPayload where
  state : Option String
  track_id : Option String
  track_path : Option String
  track_duration : Option Rat
  volume : Option Rat
  status : Option String
deriving DecidableEq, Repr

/-- findTrack: look the event track up in the library by id first, falling
back to a path lookup. -/
def findTrack (library : List Track) (trackId trackPath : Option String) :
    Option Track :=
  let byId :=
    match trackId with
    | some tid => library.find? (fun item => item.id == tid)
    | none => none
  match byId with
  | some m => some m
  | none =>
    match trackPath with
    | some p => library.find? (fun item => item.path == p)
    | none => none

/-- The conditional SET_VOLUME dispatch at the top of handlePlaybackEvent:
dispatched only when the payload carries a volume. -/
def applyVolumeDispatch (v : Option Rat) (s : AudioState) : AudioState :=
  match v with
  | some x => audioReducer s (.setVolume x)
  | none => s

/-- The conditional SET_DURATION dispatch closing each playback branch:
dispatched only when the effective duration is not null. -/
def applyDurationDispatch (d : Option Rat) (s : AudioState) : AudioState :=
  match d with
  | some x => audioReducer s (.setDuration x)
  | none => s

/-- The conditional SET_CURRENT_TRACK dispatch of the playing and paused
branches: dispatched only when the event track resolved. -/
def applyTrackDispatch (t : Option Track) (s : AudioState) : AudioState :=
  match t with
  | some x => audioReducer s (.setCurrentTrack (some x))
  | none => s

/-- handlePlaybackEvent of AudioContext.js: resolve the track and duration,
apply the volume if present, then branch on the lowercased state string.
The stopped branch always dispatches SET_PROGRESS 0 and SET_CURRENT_TRACK
(with the resolved track, or null when none resolved). -/
def handlePlaybackEvent (payload : EventPayload) (s : AudioState) : AudioState :=
  let playbackState := jsToLower (payload.state.getD "")
  let track := findTrack s.library payload.track_id payload.track_path
  let effectiveDuration : Option Rat :=
    match track with
    | some t =>
      match t.duration with
      | some d => some d
      | none => payload.track_duration
    | none => payload.track_duration
  let s0 := applyVolumeDispatch payload.volume s
  if playbackState = "playing" then
    applyDurationDispatch effectiveDuration
      (applyTrackDispatch track (audioReducer s0 (.setPlaybackState true)))
  else if playbackState = "paused" then
    applyDurationDispatch effectiveDuration
      (applyTrackDispatch track (audioReducer s0 (.setPlaybackState false)))
  else if playbackState = "stopped" then
    applyDurationDispatch effectiveDuration
      (audioReducer
        (audioReducer (audioReducer s0 (.setPlaybackState false))
          (.setProgress 0))
        (.setCurrentTrack track))
  else s0

/-- handleVolumeEvent: apply the volume when present. -/
def handleVolumeEvent (payload : EventPayload) (s : AudioState) : AudioState :=
  match payload.volume with
  | some v => audioReducer s (.setVolume v)
  | none => s

/-- handleLibraryScanEvent: toggle the loading flag on started/completed/failed. -/
def handleLibraryScanEvent (payload : EventPayload) (s : AudioState) : AudioState :=
  let status := jsToLower (payload.status.getD "")
  if status = "started" then audioReducer s (.setLoading true)
  else if status = "completed" ∨ status = "failed" then
    audioReducer s (.setLoading false)
  else s

/-- Success path of loadLibrary(false) as triggered by a library_updated
event: clear the error and replace the library with the fetched tracks. -/
def handleLibraryUpdatedEvent (fetched : List Track) (s : AudioState) : AudioState :=
  audioReducer (audioReducer s (.setError none)) (.setLibrary fetched)

/-- A parsed event message: the type tag (none when the parsed value carries
no string type field) and the remaining payload fields. -/
structure RawEvent where
  type : Option String
  payload : EventPayload
deriving DecidableEq, Repr

/-- handleEventMessage: none models a JSON.parse failure (the handler logs
and returns); otherwise dispatch on the type tag, ignoring unknown tags.
fetched is the library that a library_updated reload would produce. -/
def handleEventMessage (fetched : List Track) (parsed : Option RawEvent)
    (s : AudioState) : AudioState :=
  match parsed with
  | none => s
  | some ev =>
    if ev.type = some "playback_state" then handlePlaybackEvent ev.payload s
    else if ev.type = some "volume_changed" then handleVolumeEvent ev.payload s
    else if ev.type = some "library_scan" then handleLibraryScanEvent ev.payload s
    else if ev.type = some "library_updated" then handleLibraryUpdatedEvent fetched s
    else s

/-- The cursor invariant of the playback queue: −1 on an empty queue,
otherwise a valid index. -/
def cursorInvariant (s : AudioState) : Prop :=
  (s.queue = [] → s.currentQueueIndex = -1) ∧
  (s.queue ≠ [] →
    0 ≤ s.currentQueueIndex ∧ s.currentQueueIndex < (s.queue.length : Int))

instance (s : AudioState) : Decidable (cursorInvariant s) := by
  unfold cursorInvariant; infer_instance

/-- Well-formedness of an explicit SET_QUEUE start index: −1 for an empty
payload, a valid index otherwise (the shape both dispatch sites produce). -/
def startIndexValid (tracks : List Track) (si : Option Int) : Prop :=
  match si with
  | none => True
  | some i =>
    (tracks = [] → i = -1) ∧ (tracks ≠ [] → 0 ≤ i ∧ i < (tracks.length : Int))

/-- Sample track a. -/
def tA : Track := { id := "a", path := "/music/a.mp3", duration := some 100 }

/-- Sample track b. -/
def tB : Track := { id := "b", path := "/music/b.mp3", duration := some 200 }

/-- Sample track c (no duration attribute). -/
def tC : Track := { id := "c", path := "/music/c.mp3", duration := none }

/-- Sample state: three-track queue at cursor 0, the same tracks in the
library, integral volume so that concrete evaluation stays cheap. -/
def base : AudioState :=
  { initialState with
    volume := 1
    queue := [tA, tB, tC]
    currentQueueIndex := 0
    currentTrack := some tA
    library := [tA, tB, tC] }

theorem filterOutIndex_nil (i : Int) (k : Nat) : filterOutIndex i k [] = [] := rfl

theorem filterOutIndex_all_kept (i : Int) :
    ∀ (l : List Track) (k : Nat), i < (k : Int) → filterOutIndex i k l = l := by
  intro l
  induction l with
  | nil => intro k _; rfl
  | cons x xs ih =>
    intro k hk
    have hne : ¬((k : Int) = i) := by omega
    simp only [filterOutIndex, if_neg hne]
    rw [ih (k + 1) (by push_cast; omega)]

theorem filterOutIndex_length (i : Int) :
    ∀ (l : List Track) (k : Nat), (k : Int) ≤ i → i < (k : Int) + l.length →
      (filterOutIndex i k l).length + 1 = l.length := by
  intro l
  induction l with
  | nil => intro k h1 h2; simp at h2; omega
  | cons x xs ih =>
    intro k h1 h2
    by_cases hk : (k : Int) = i
    · simp only [filterOutIndex, if_pos hk]
      rw [filterOutIndex_all_kept i xs (k + 1) (by push_cast; omega)]
      simp
    · simp only [filterOutIndex, if_neg hk, List.length_cons]
      have := ih (k + 1) (by push_cast; omega)
        (by push_cast; simp at h2; omega)
      omega

theorem jsIndex_some (l : List Track) (i : Int) (h0 : 0 ≤ i)
    (h1 : i < (l.length : Int)) : ∃ t, jsIndex l i = some t := by
  unfold jsIndex
  rw [if_neg (not_lt.mpr h0)]
  have hlt : i.toNat < l.length := by omega
  exact ⟨l.get ⟨i.toNat, hlt⟩, List.get?_eq_get hlt⟩

/-- C9: pausing twice in a row is the same state transform as pausing once,
the result has the playing flag cleared, and pausing from a paused state is
handled by the very same total transform (no error path). -/
theorem claim9_pause_idempotent (s : AudioState) :
    pausePlayback (pausePlayback s) = pausePlayback s ∧
    (pausePlayback s).isPlaying = false := by
  exact ⟨rfl, rfl⟩

/-- C8: ADD_TO_QUEUE with a track whose identity already occurs in the queue
returns the state itself, every field unchanged. -/
theorem claim8_add_duplicate_noop (s : AudioState) (t : Track)
    (h : s.queue.any (fun queueTrack => queueTrack.id == t.id) = true) :
    addToQueue s t = s := by
  simp only [addToQueue, audioReducer, h, if_true]

/-- C8 witness: adding track b, already queued in the sample state, changes
nothing. -/
theorem claim8_add_duplicate_noop_witness :
    (base.queue.any (fun queueTrack => queueTrack.id == tB.id) = true) ∧
    addToQueue base tB = base :=
  ⟨by decide, claim8_add_duplicate_noop base tB (by decide)⟩

/-- C2 counterexample: resuming from the stopped initial state sets the
playing flag to true, so the state does not remain stopped with the flag
still false as claimed. -/
theorem claim2_counterexample :
    (resumePlayback initialState).isPlaying = true := rfl

/-- C2 amended: resumePlayback unconditionally sets the playing flag, also
from a stopped state (leaving the unbound current track unbound); a stopped
state is left unchanged only through the guarded togglePlayPause entry
point, which declines to resume when no track is bound. -/
theorem claim2_resume_not_noop (s : AudioState) :
    (resumePlayback s).isPlaying = true ∧
    (resumePlayback s).currentTrack = s.currentTrack ∧
    (s.isPlaying = false → s.currentTrack = none → togglePlayPause s = s) := by
  refine ⟨rfl, rfl, fun h1 h2 => ?_⟩
  simp [togglePlayPause, h1, h2]

/-- C2 witness: at the stopped initial state, resume flips the flag while
togglePlayPause leaves the state unchanged. -/
theorem claim2_resume_not_noop_witness :
    (resumePlayback initialState).isPlaying = true ∧
    togglePlayPause initialState = initialState :=
  ⟨(claim2_resume_not_noop initialState).1,
   (claim2_resume_not_noop initialState).2.2 rfl rfl⟩

/-- C1 counterexample: at cursor 0 with repeat mode none, previousTrack on
the sample three-track queue does not return none: it returns track a and
starts it. -/
theorem claim1_counterexample :
    previousTrack base ≠ none ∧
    (previousTrack base).map (fun p => (p.1, p.2.currentQueueIndex, p.2.isPlaying))
      = some (tA, 0, true) := by
  exact ⟨by decide, by decide⟩

/-- C1 amended: with a non-empty queue, cursor 0 and repeat mode other than
all, previousTrack clamps the index at 0 but does not return none: it
returns the track at index 0 (the current track) and restarts it. -/
theorem claim1_previous_restarts (s : AudioState)
    (hq : s.queue ≠ []) (hc : s.currentQueueIndex = 0)
    (hr : s.repeatMode ≠ RepeatMode.all) :
    ∃ t s2, previousTrack s = some (t, s2) ∧
      jsIndex s.queue 0 = some t ∧
      s2.currentQueueIndex = 0 ∧ s2.isPlaying = true := by
  have hlen : ¬(s.queue.length = 0) := by
    simpa using fun h => hq (List.length_eq_zero.mp h)
  have hlen0 : 0 < (s.queue.length : Int) := by omega
  obtain ⟨t, ht⟩ := jsIndex_some s.queue 0 (le_refl 0) hlen0
  refine ⟨t, applyPlayDispatches s 0 t, ?_, ht, rfl, rfl⟩
  unfold previousTrack
  rw [if_neg hlen, hc]
  norm_num
  rw [if_neg hr, ht]

/-- C1 witness: instantiating the amended statement at the sample state. -/
theorem claim1_previous_restarts_witness :
    ∃ t s2, previousTrack base = some (t, s2) ∧
      jsIndex base.queue 0 = some t ∧
      s2.currentQueueIndex = 0 ∧ s2.isPlaying = true :=
  claim1_previous_restarts base (by decide) rfl (by decide)

/-- C5: with shuffle off and repeat mode none, nextTrack at the last index of
a non-empty queue returns none, whatever the draws, and the resulting state
transform is the identity. -/
theorem claim5_next_at_end_none (s : AudioState) (draws : List Nat)
    (hsh : s.shuffle = false) (hr : s.repeatMode = RepeatMode.none)
    (hq : s.queue ≠ [])
    (hc : s.currentQueueIndex = (s.queue.length : Int) - 1) :
    nextTrack s draws = none ∧ advanceState s draws = s := by
  have hlen : ¬(s.queue.length = 0) := by
    simpa using fun h => hq (List.length_eq_zero.mp h)
  have hnext : nextTrack s draws = none := by
    unfold nextTrack
    rw [if_neg hlen]
    have h1 : ¬(s.repeatMode = RepeatMode.one) := by rw [hr]; decide
    have h2 : ¬(s.repeatMode = RepeatMode.all) := by rw [hr]; decide
    simp only [h1, if_false, hsh, Bool.false_eq_true, hc, if_neg]
    rw [if_pos (by omega), if_neg h2]
  exact ⟨hnext, by unfold advanceState; rw [hnext]⟩

/-- C5 witness: at the sample queue with cursor moved to the last index,
next returns none and changes nothing. -/
theorem claim5_next_at_end_none_witness :
    nextTrack { base with currentQueueIndex := 2 } [] = none ∧
    advanceState { base with currentQueueIndex := 2 } [] =
      { base with currentQueueIndex := 2 } :=
  claim5_next_at_end_none { base with currentQueueIndex := 2 } []
    rfl rfl (by decide) (by decide)

/-- C10: an event message that fails to parse, or whose type tag is none of
playback_state, volume_changed, library_scan, library_updated, leaves the
state unchanged. -/
theorem claim10_unknown_event_ignored (fetched : List Track) (s : AudioState) :
    handleEventMessage fetched none s = s ∧
    ∀ ev : RawEvent,
      ev.type ≠ some "playback_state" →
      ev.type ≠ some "volume_changed" →
      ev.type ≠ some "library_scan" →
      ev.type ≠ some "library_updated" →
      handleEventMessage fetched (some ev) s = s := by
  refine ⟨rfl, fun ev h1 h2 h3 h4 => ?_⟩
  simp [handleEventMessage, h1, h2, h3, h4]

/-- C10 witness: a parse failure and a bogus tag both leave the sample state
unchanged. -/
theorem claim10_unknown_event_ignored_witness :
    handleEventMessage [] none base = base ∧
    handleEventMessage []
      (some { type := some "bogus"
              payload := { state := none, track_id := none, track_path := none,
                           track_duration := none, volume := none, status := none } })
      base = base :=
  ⟨(claim10_unknown_event_ignored [] base).1,
   (claim10_unknown_event_ignored [] base).2
     { type := some "bogus"
       payload := { state := none, track_id := none, track_path := none,
                    track_duration := none, volume := none, status := none } }
     (by decide) (by decide) (by decide) (by decide)⟩

/-- A stopped playback_state payload naming track b. -/
def stopPayloadB : EventPayload :=
  { state := some "stopped", track_id := some "b", track_path := none,
    track_duration := none, volume := none, status := none }

/-- C7 counterexample: a stopped event naming library track b leaves that
track bound as the current track instead of clearing it, at a state where a
track was playing with nonzero progress. -/
theorem claim7_counterexample :
    (handlePlaybackEvent stopPayloadB
        { base with progress := 5, isPlaying := true }).currentTrack = some tB ∧
    (handlePlaybackEvent stopPayloadB
        { base with progress := 5, isPlaying := true }).currentTrack ≠ none := by
  exact ⟨by decide, by decide⟩

/-- C7 amended: a stopped playback_state event always resets progress to 0
and clears the playing flag; the bound track is cleared exactly when the
payload does not resolve to a library track, and is otherwise rebound to
the resolved track. -/
theorem applyDurationDispatch_progress (d : Option Rat) (s : AudioState) :
    (applyDurationDispatch d s).progress = s.progress := by
  cases d <;> rfl

theorem applyDurationDispatch_isPlaying (d : Option Rat) (s : AudioState) :
    (applyDurationDispatch d s).isPlaying = s.isPlaying := by
  cases d <;> rfl

theorem applyDurationDispatch_currentTrack (d : Option Rat) (s : AudioState) :
    (applyDurationDispatch d s).currentTrack = s.currentTrack := by
  cases d <;> rfl

theorem claim7_stop_resets (s : AudioState) (payload : EventPayload)
    (h : jsToLower (payload.state.getD "") = "stopped") :
    (handlePlaybackEvent payload s).progress = 0 ∧
    (handlePlaybackEvent payload s).isPlaying = false ∧
    (handlePlaybackEvent payload s).currentTrack
      = findTrack s.library payload.track_id payload.track_path := by
  unfold handlePlaybackEvent
  rw [h]
  have hp : ¬(("stopped" : String) = "playing") := by decide
  have hq : ¬(("stopped" : String) = "paused") := by decide
  rw [if_neg hp, if_neg hq, if_pos rfl]
  refine ⟨?_, ?_, ?_⟩
  · rw [applyDurationDispatch_progress]; rfl
  · rw [applyDurationDispatch_isPlaying]; rfl
  · rw [applyDurationDispatch_currentTrack]; rfl

/-- C7 witness: at the sample state the stopped event naming track b resets
progress, clears the playing flag, and binds the resolved track. -/
theorem claim7_stop_resets_witness :
    (handlePlaybackEvent stopPayloadB base).progress = 0 ∧
    (handlePlaybackEvent stopPayloadB base).isPlaying = false ∧
    (handlePlaybackEvent stopPayloadB base).currentTrack
      = findTrack base.library stopPayloadB.track_id stopPayloadB.track_path :=
  claim7_stop_resets base stopPayloadB (by decide)

theorem pickShuffleIndex_ne (cursor : Int) :
    ∀ (draws : List Nat) (r : Nat),
      pickShuffleIndex cursor draws = some r → (r : Int) ≠ cursor := by
  intro draws
  induction draws with
  | nil => intro r h; simp [pickShuffleIndex] at h
  | cons a rs ih =>
    intro r h
    by_cases ha : (a : Int) = cursor
    · rw [pickShuffleIndex, if_pos ha] at h
      exact ih r h
    · rw [pickShuffleIndex, if_neg ha] at h
      cases h
      exact ha

/-- Sample shuffle state: three tracks at cursor 0, shuffle on, repeat off. -/
def shuffleBase : AudioState := { base with shuffle := true }

/-- Sample state for the C6 counterexample: two tracks, shuffle on, repeat
mode one. -/
def shuffleOneBase : AudioState :=
  { initialState with
    volume := 1
    queue := [tA, tB]
    currentQueueIndex := 0
    currentTrack := some tA
    shuffle := true
    repeatMode := RepeatMode.one }

/-- C6 counterexample: with shuffle enabled and a two-track queue, but
repeat mode one, nextTrack returns the track at the current cursor (index
0) even though the draw offered index 1: the repeat-one branch takes
precedence over the shuffle branch. -/
theorem claim6_counterexample :
    (nextTrack shuffleOneBase [1]).map (fun p => (p.1, p.2.currentQueueIndex))
      = some (tA, 0) := by decide

/-- C6 amended: with shuffle enabled, repeat mode other than one and queue
length above 1, every terminating outcome of the random index loop plays a
track at an index different from the current cursor; with a one-element
queue at cursor 0, nextTrack repeats the only track. -/
theorem claim6_shuffle_exclusive :
    (∀ (s : AudioState) (draws : List Nat) (t : Track) (s2 : AudioState),
      s.shuffle = true → s.repeatMode ≠ RepeatMode.one →
      1 < s.queue.length →
      nextTrack s draws = some (t, s2) →
      s2.currentQueueIndex ≠ s.currentQueueIndex ∧
      jsIndex s.queue s2.currentQueueIndex = some t) ∧
    (∀ (s : AudioState) (draws : List Nat) (t0 : Track),
      s.shuffle = true → s.queue = [t0] → s.currentQueueIndex = 0 →
      nextTrack s draws = some (t0, applyPlayDispatches s 0 t0)) := by
  constructor
  · intro s draws t s2 hsh hr hlen h
    unfold nextTrack at h
    rw [if_neg (by omega), if_neg hr] at h
    simp only [hsh, if_true, if_pos hlen] at h
    rcases hpick : pickShuffleIndex s.currentQueueIndex draws with _ | r
    · rw [hpick] at h; simp at h
    · rw [hpick] at h
      rcases hj : jsIndex s.queue ((r : Nat) : Int) with _ | nx
      · simp [hj] at h
      · simp [hj] at h
        obtain ⟨ht, hs2⟩ := h
        have hidx : s2.currentQueueIndex = (r : Int) := by
          rw [← hs2]; rfl
        refine ⟨?_, ?_⟩
        · rw [hidx]; exact pickShuffleIndex_ne s.currentQueueIndex draws r hpick
        · rw [hidx, hj, ht]
  · intro s draws t0 hsh hq hc
    unfold nextTrack
    rw [hq]
    simp only [List.length_cons, List.length_nil]
    rw [if_neg (by omega)]
    have hone : ¬((1 : Nat) < 1) := by omega
    by_cases hr : s.repeatMode = RepeatMode.one
    · rw [if_pos hr, hc]
      rfl
    · rw [if_neg hr]
      simp only [hsh, if_true, if_neg hone, hc]
      rfl

/-- C6 witness: from the sample shuffle state at cursor 0, the draw sequence
that first offers the cursor itself and then index 2 ends at index 2, a
different index holding track c; and a singleton shuffle queue repeats its
only track. -/
theorem claim6_shuffle_exclusive_witness :
    ((applyPlayDispatches shuffleBase 2 tC).currentQueueIndex
        ≠ shuffleBase.currentQueueIndex ∧
      jsIndex shuffleBase.queue
        (applyPlayDispatches shuffleBase 2 tC).currentQueueIndex = some tC) ∧
    nextTrack
        { initialState with
          volume := 1
          queue := [tC]
          currentQueueIndex := 0
          currentTrack := some tC
          shuffle := true } [0, 0]
      = some (tC, applyPlayDispatches
          { initialState with
            volume := 1
            queue := [tC]
            currentQueueIndex := 0
            currentTrack := some tC
            shuffle := true } 0 tC) :=
  ⟨claim6_shuffle_exclusive.1 shuffleBase [0, 2] tC
      (applyPlayDispatches shuffleBase 2 tC) rfl (by decide) (by decide)
      (by decide),
   claim6_shuffle_exclusive.2
      { initialState with
        volume := 1
        queue := [tC]
        currentQueueIndex := 0
        currentTrack := some tC
        shuffle := true } [0, 0] tC rfl rfl rfl⟩

/-- Sample one-track state for the removal-to-empty scenario. -/
def baseSingle : AudioState :=
  { initialState with
    volume := 1
    queue := [tA]
    currentQueueIndex := 0
    currentTrack := some tA }

/-- C3: the queue operations preserve the cursor invariant (cursor −1 on an
empty queue, a valid index otherwise): SET_QUEUE under a well-formed start
index, ADD_TO_QUEUE, REMOVE_FROM_QUEUE and CLEAR_QUEUE in the reducer, and
the exposed removeFromQueue; removing the current last index clamps the
cursor to the new last index, and removing the only track resets to the
empty state with no current track. -/
theorem claim3_queue_invariant (s : AudioState) (hs : cursorInvariant s) :
    (∀ (tracks : List Track) (si : Option Int), startIndexValid tracks si →
      cursorInvariant (audioReducer s (.setQueue tracks si))) ∧
    (∀ t : Track, cursorInvariant (audioReducer s (.addToQueue t))) ∧
    (∀ i : Int, cursorInvariant (audioReducer s (.removeFromQueue i))) ∧
    cursorInvariant (audioReducer s .clearQueue) ∧
    (∀ i : Int, cursorInvariant (removeFromQueue s i)) ∧
    (2 ≤ s.queue.length → s.currentQueueIndex = (s.queue.length : Int) - 1 →
      (removeFromQueue s s.currentQueueIndex).currentQueueIndex
        = ((removeFromQueue s s.currentQueueIndex).queue.length : Int) - 1) ∧
    (∀ t0 : Track, s.queue = [t0] →
      (removeFromQueue s 0).queue = [] ∧
      (removeFromQueue s 0).currentQueueIndex = -1 ∧
      (removeFromQueue s 0).currentTrack = none) := by
  obtain ⟨hse, hsn⟩ := hs
  refine ⟨?_, ?_, ?_, ?_, ?_, ?_, ?_⟩
  · -- SET_QUEUE with a well-formed start index
    intro tracks si hv
    rcases si with _ | i
    · by_cases htr : tracks = []
      · subst htr
        exact ⟨fun _ => rfl, fun hnn => absurd rfl hnn⟩
      · have hl : 0 < tracks.length := List.length_pos.mpr htr
        refine ⟨fun hnil => absurd hnil htr, fun _ => ?_⟩
        show 0 ≤ (if 0 < tracks.length then (0 : Int) else -1) ∧
          (if 0 < tracks.length then (0 : Int) else -1) < (tracks.length : Int)
        rw [if_pos hl]
        omega
    · exact ⟨fun hnil => hv.1 hnil, fun hnn => hv.2 hnn⟩
  · -- ADD_TO_QUEUE
    intro t
    by_cases hdup : (s.queue.any fun queueTrack => queueTrack.id == t.id) = true
    · simp only [audioReducer, hdup, if_true]
      exact ⟨hse, hsn⟩
    · have hred : audioReducer s (.addToQueue t)
          = { s with
              queue := s.queue ++ [t],
              currentQueueIndex :=
                if (s.queue.length == 0) = true then 0 else s.currentQueueIndex,
              currentTrack :=
                if (s.queue.length == 0) = true then some t else s.currentTrack } := by
        simp only [audioReducer]
        rw [if_neg hdup]
      rw [hred]
      refine ⟨fun hnil => ?_, fun _ => ?_⟩
      · exfalso
        have hnil2 : s.queue ++ [t] = [] := hnil
        simp at hnil2
      · show 0 ≤ (if (s.queue.length == 0) = true then (0 : Int)
            else s.currentQueueIndex) ∧
          (if (s.queue.length == 0) = true then (0 : Int)
            else s.currentQueueIndex) < ((s.queue ++ [t]).length : Int)
        by_cases hq0 : s.queue = []
        · have hb : ((s.queue.length == 0) = true) := by simp [hq0]
          rw [if_pos hb, hq0]
          simp
        · have hl : 0 < s.queue.length := List.length_pos.mpr hq0
          have hc := hsn hq0
          have hb : ¬((s.queue.length == 0) = true) := by
            simp only [beq_iff_eq]
            omega
          rw [if_neg hb]
          simp only [List.length_append, List.length_cons, List.length_nil]
          push_cast
          omega
  · -- REMOVE_FROM_QUEUE in the reducer
    intro i
    refine ⟨fun hnil => ?_, fun hnn => ?_⟩
    · have hq : filterOutIndex i 0 s.queue = [] := hnil
      have h0 : (filterOutIndex i 0 s.queue).length = 0 := by rw [hq]; rfl
      show (if (filterOutIndex i 0 s.queue).length = 0 then (-1 : Int)
          else _) = -1
      rw [if_pos h0]
    · have h0 : ¬((filterOutIndex i 0 s.queue).length = 0) := by
        intro h
        exact hnn (List.length_eq_zero.mp h)
    -- the old queue cannot be empty either
      have hqne : s.queue ≠ [] := by
        intro h
        apply h0
        rw [h]
        rfl
      have hc := hsn hqne
      show 0 ≤ (if (filterOutIndex i 0 s.queue).length = 0 then (-1 : Int)
          else if ((filterOutIndex i 0 s.queue).length : Int) ≤ s.currentQueueIndex
            then ((filterOutIndex i 0 s.queue).length : Int) - 1
            else s.currentQueueIndex) ∧
        (if (filterOutIndex i 0 s.queue).length = 0 then (-1 : Int)
          else if ((filterOutIndex i 0 s.queue).length : Int) ≤ s.currentQueueIndex
            then ((filterOutIndex i 0 s.queue).length : Int) - 1
            else s.currentQueueIndex) < ((filterOutIndex i 0 s.queue).length : Int)
      rw [if_neg h0]
      by_cases hle : ((filterOutIndex i 0 s.queue).length : Int) ≤ s.currentQueueIndex
      · rw [if_pos hle]; omega
      · rw [if_neg hle]; omega
  · -- CLEAR_QUEUE
    exact ⟨fun _ => rfl, fun hnn => absurd rfl hnn⟩
  · -- the exposed removeFromQueue
    intro i
    refine ⟨fun hnil => ?_, fun hnn => ?_⟩
    · have hq : filterOutIndex i 0 s.queue = [] := hnil
      have h0 : (filterOutIndex i 0 s.queue).length = 0 := by rw [hq]; rfl
      show (if (filterOutIndex i 0 s.queue).length = 0 then (-1 : Int)
          else min s.currentQueueIndex (((filterOutIndex i 0 s.queue).length : Int) - 1))
        = -1
      rw [if_pos h0]
    · have h0 : ¬((filterOutIndex i 0 s.queue).length = 0) := by
        intro h
        apply hnn
        show filterOutIndex i 0 s.queue = []
        exact List.length_eq_zero.mp h
      have hqne : s.queue ≠ [] := by
        intro h
        apply h0
        rw [h]
        rfl
      have hc := hsn hqne
      show 0 ≤ (if (filterOutIndex i 0 s.queue).length = 0 then (-1 : Int)
          else min s.currentQueueIndex (((filterOutIndex i 0 s.queue).length : Int) - 1)) ∧
        (if (filterOutIndex i 0 s.queue).length = 0 then (-1 : Int)
          else min s.currentQueueIndex (((filterOutIndex i 0 s.queue).length : Int) - 1))
          < ((filterOutIndex i 0 s.queue).length : Int)
      rw [if_neg h0]
      omega
  · -- removing the current last index clamps to the new last index
    intro h2 hlast
    have hlen := filterOutIndex_length s.currentQueueIndex s.queue 0
      (by omega) (by push_cast; omega)
    have h0 : ¬((filterOutIndex s.currentQueueIndex 0 s.queue).length = 0) := by
      omega
    show (if (filterOutIndex s.currentQueueIndex 0 s.queue).length = 0 then (-1 : Int)
        else min s.currentQueueIndex
          (((filterOutIndex s.currentQueueIndex 0 s.queue).length : Int) - 1))
      = ((filterOutIndex s.currentQueueIndex 0 s.queue).length : Int) - 1
    rw [if_neg h0]
    omega
  · -- removing the only track resets to the empty state
    intro t0 hq
    have hnil : filterOutIndex 0 0 s.queue = [] := by
      rw [hq]; rfl
    refine ⟨?_, ?_, ?_⟩
    · show filterOutIndex 0 0 s.queue = []
      exact hnil
    · show (if (filterOutIndex 0 0 s.queue).length = 0 then (-1 : Int)
          else min s.currentQueueIndex (((filterOutIndex 0 0 s.queue).length : Int) - 1))
        = -1
      rw [if_pos (by rw [hnil]; rfl)]
    · show (if 0 ≤ (if (filterOutIndex 0 0 s.queue).length = 0 then (-1 : Int)
            else min s.currentQueueIndex (((filterOutIndex 0 0 s.queue).length : Int) - 1))
          then jsIndex (filterOutIndex 0 0 s.queue)
            (if (filterOutIndex 0 0 s.queue).length = 0 then (-1 : Int)
              else min s.currentQueueIndex
                (((filterOutIndex 0 0 s.queue).length : Int) - 1))
          else none)
        = none
      rw [hnil]
      rfl

/-- C3 witness: the invariant holds after a well-formed SET_QUEUE and after
a removal on the sample state, and removing the only queued track of the
one-track sample resets queue, cursor and current track. -/
theorem claim3_queue_invariant_witness :
    cursorInvariant (audioReducer base (Action.setQueue [tA] (some 0))) ∧
    cursorInvariant (removeFromQueue base 1) ∧
    ((removeFromQueue baseSingle 0).queue = [] ∧
     (removeFromQueue baseSingle 0).currentQueueIndex = -1 ∧
     (removeFromQueue baseSingle 0).currentTrack = none) :=
  ⟨(claim3_queue_invariant base (by decide)).1 [tA] (some 0)
      (by simp [startIndexValid]),
   (claim3_queue_invariant base (by decide)).2.2.2.2.1 1,
   (claim3_queue_invariant baseSingle (by decide)).2.2.2.2.2.2 tA rfl⟩

theorem seqAdvance_step (s : AudioState)
    (hsh : s.shuffle = false) (hr : s.repeatMode = RepeatMode.all)
    (hc0 : 0 ≤ s.currentQueueIndex)
    (hc1 : s.currentQueueIndex < (s.queue.length : Int)) :
    (seqAdvance s).queue = s.queue ∧
    (seqAdvance s).shuffle = false ∧
    (seqAdvance s).repeatMode = RepeatMode.all ∧
    (seqAdvance s).currentQueueIndex
      = (s.currentQueueIndex + 1) % (s.queue.length : Int) ∧
    (seqAdvance s).currentTrack
      = jsIndex s.queue ((s.currentQueueIndex + 1) % (s.queue.length : Int)) := by
  have hlen : ¬(s.queue.length = 0) := by omega
  have hone : ¬(s.repeatMode = RepeatMode.one) := by rw [hr]; decide
  by_cases hend : (s.queue.length : Int) ≤ s.currentQueueIndex + 1
  · have hmod : (s.currentQueueIndex + 1) % (s.queue.length : Int) = 0 := by
      have hc2 : s.currentQueueIndex + 1 = (s.queue.length : Int) := by omega
      rw [hc2]
      exact Int.emod_self
    obtain ⟨t, ht⟩ := jsIndex_some s.queue 0 le_rfl (by omega)
    have hred : seqAdvance s = applyPlayDispatches s 0 t := by
      unfold seqAdvance advanceState nextTrack
      rw [if_neg hlen, if_neg hone]
      simp only [hsh, Bool.false_eq_true, if_false]
      rw [if_pos hend, if_pos hr]
      simp only [ht]
    rw [hred, hmod, ht]
    exact ⟨rfl, hsh, hr, rfl, rfl⟩
  · have hmod : (s.currentQueueIndex + 1) % (s.queue.length : Int)
        = s.currentQueueIndex + 1 :=
      Int.emod_eq_of_lt (by omega) (by omega)
    obtain ⟨t, ht⟩ := jsIndex_some s.queue (s.currentQueueIndex + 1)
      (by omega) (by omega)
    have hred : seqAdvance s = applyPlayDispatches s (s.currentQueueIndex + 1) t := by
      unfold seqAdvance advanceState nextTrack
      rw [if_neg hlen, if_neg hone]
      simp only [hsh, Bool.false_eq_true, if_false]
      rw [if_neg hend]
      simp only [ht]
    rw [hred, hmod, ht]
    exact ⟨rfl, hsh, hr, rfl, rfl⟩

theorem seqAdvance_iterate (s : AudioState)
    (hsh : s.shuffle = false) (hr : s.repeatMode = RepeatMode.all)
    (hc0 : 0 ≤ s.currentQueueIndex)
    (hc1 : s.currentQueueIndex < (s.queue.length : Int)) :
    ∀ k : Nat,
      (seqAdvance^[k + 1] s).queue = s.queue ∧
      (seqAdvance^[k + 1] s).shuffle = false ∧
      (seqAdvance^[k + 1] s).repeatMode = RepeatMode.all ∧
      (seqAdvance^[k + 1] s).currentQueueIndex
        = (s.currentQueueIndex + (k + 1)) % (s.queue.length : Int) ∧
      (seqAdvance^[k + 1] s).currentTrack
        = jsIndex s.queue
            ((s.currentQueueIndex + (k + 1)) % (s.queue.length : Int)) := by
  intro k
  induction k with
  | zero =>
    have step := seqAdvance_step s hsh hr hc0 hc1
    simpa [Function.iterate_one] using step
  | succ n ih =>
    obtain ⟨ihq, ihsh, ihr, ihc, iht⟩ := ih
    have hlen : 0 < (s.queue.length : Int) := by omega
    have h0 : 0 ≤ (seqAdvance^[n + 1] s).currentQueueIndex := by
      rw [ihc]
      exact Int.emod_nonneg _ (by omega)
    have h1 : (seqAdvance^[n + 1] s).currentQueueIndex
        < (((seqAdvance^[n + 1] s).queue.length : Nat) : Int) := by
      rw [ihc, ihq]
      exact Int.emod_lt_of_pos _ hlen
    obtain ⟨sq, ssh, srm, sc, st⟩ :=
      seqAdvance_step (seqAdvance^[n + 1] s) ihsh ihr h0 h1
    rw [Function.iterate_succ_apply']
    refine ⟨by rw [sq, ihq], by rw [ssh], by rw [srm], ?_, ?_⟩
    · rw [sc, ihc, ihq, Int.emod_add_emod]
      congr 1
      push_cast
      ring
    · rw [st, ihc, ihq, Int.emod_add_emod]
      congr 2
      push_cast
      ring

/-- C4: with shuffle off and repeat mode all, from any valid cursor whose
track is the bound current track, queue-many nextTrack calls return the
cursor to its original position with the original current track bound; in
particular a single call from the last index wraps the cursor to 0. -/
theorem claim4_repeat_all_cycle (s : AudioState)
    (hsh : s.shuffle = false) (hr : s.repeatMode = RepeatMode.all)
    (hc0 : 0 ≤ s.currentQueueIndex)
    (hc1 : s.currentQueueIndex < (s.queue.length : Int))
    (hcur : s.currentTrack = jsIndex s.queue s.currentQueueIndex) :
    (seqAdvance^[s.queue.length] s).currentQueueIndex = s.currentQueueIndex ∧
    (seqAdvance^[s.queue.length] s).currentTrack = s.currentTrack ∧
    (seqAdvance^[s.queue.length] s).queue = s.queue ∧
    (s.currentQueueIndex = (s.queue.length : Int) - 1 →
      (seqAdvance s).currentQueueIndex = 0) := by
  have hlen : 0 < s.queue.length := by omega
  obtain ⟨n, hn⟩ : ∃ n, s.queue.length = n + 1 := ⟨s.queue.length - 1, by omega⟩
  have iter := seqAdvance_iterate s hsh hr hc0 hc1 n
  rw [← hn] at iter
  obtain ⟨iq, ish, irm, ic, it⟩ := iter
  have hcast2 : ((n : Int) + 1) = (s.queue.length : Int) := by
    rw [hn]
    push_cast
    ring
  rw [hcast2] at ic it
  have hmod : (s.currentQueueIndex + (s.queue.length : Int))
      % (s.queue.length : Int) = s.currentQueueIndex := by
    have h1 := Int.add_mul_emod_self_left s.currentQueueIndex
      (s.queue.length : Int) 1
    rw [mul_one] at h1
    rw [h1, Int.emod_eq_of_lt hc0 hc1]
  refine ⟨?_, ?_, iq, ?_⟩
  · rw [ic, hmod]
  · rw [it, hmod, hcur]
  · intro hlast
    obtain ⟨_, _, _, sc, _⟩ := seqAdvance_step s hsh hr hc0 hc1
    rw [sc, hlast]
    have h2 : (s.queue.length : Int) - 1 + 1 = (s.queue.length : Int) := by ring
    rw [h2]
    exact Int.emod_self

/-- Sample state with repeat mode all for the cycle law. -/
def baseAll : AudioState := { base with repeatMode := RepeatMode.all }

/-- C4 witness: three nextTrack calls on the three-track repeat-all sample
state return cursor and current track to the original, and a single call
from the last index wraps to 0. -/
theorem claim4_repeat_all_cycle_witness :
    (seqAdvance^[baseAll.queue.length] baseAll).currentQueueIndex
      = baseAll.currentQueueIndex ∧
    (seqAdvance^[baseAll.queue.length] baseAll).currentTrack
      = baseAll.currentTrack ∧
    (seqAdvance^[baseAll.queue.length] baseAll).queue = baseAll.queue ∧
    (baseAll.currentQueueIndex = (baseAll.queue.length : Int) - 1 →
      (seqAdvance baseAll).currentQueueIndex = 0) :=
  claim4_repeat_all_cycle baseAll rfl rfl (by decide) (by decide) (by decide)

end Hexendrum
